import Mathlib

/-!
Verification of the bounds-classification and momentum-computation engine of
the crypto grid-alert bot (`src/bot.py`).  The numeric functions are embedded
over exact rationals (`ℚ`); Python `Optional` values become `Option`, the
loosely-typed result dictionary of `check_bounds` becomes a structure, and the
formatted trigger / recommendation strings become structured values carrying
the same numeric payload (the message text itself has no logical content).
-/

namespace GridBot

/-- Wilder RSI period, `period = 14` in `rsi_14` (bot.py line 167). -/
def period : ℕ := 14

/-- Consecutive differences `closes[i] - closes[i-1]` for `i = 1 .. len-1`
(bot.py lines 174-175 and 182-183 both use this quantity). -/
def diffs (cs : List ℚ) : List ℚ :=
  List.zipWith (fun a b => b - a) cs cs.tail

/-- One iteration of the Wilder smoothing loop of `rsi_14`
(bot.py lines 182-187): the state is the pair `(avg_gain, avg_loss)`. -/
def wilderStep (p : ℚ × ℚ) (d : ℚ) : ℚ × ℚ :=
  ((p.1 * ((period : ℚ) - 1) + max d 0) / (period : ℚ),
   (p.2 * ((period : ℚ) - 1) + max (-d) 0) / (period : ℚ))

/-- Body of `rsi_14` after the length guard, expressed on the list of
consecutive differences: seed averages from the first `period` diffs
(bot.py lines 171-180), Wilder-smooth over the remaining diffs
(lines 182-187), then the `avg_loss == 0` special case and the
`100 - 100/(1+rs)` formula (lines 189-193). -/
def rsiFromDiffs (ds : List ℚ) : ℚ :=
  let avg_gain := ((ds.take period).map (fun d => max d 0)).sum / (period : ℚ)
  let avg_loss := ((ds.take period).map (fun d => max (-d) 0)).sum / (period : ℚ)
  let fin := (ds.drop period).foldl wilderStep (avg_gain, avg_loss)
  if fin.2 = 0 then 100
  else 100 - 100 / (1 + fin.1 / fin.2)

/-- `rsi_14` (bot.py lines 166-193): `None` when the input is `None` or has
fewer than `period + 1 = 15` points, otherwise the Wilder-smoothed RSI. -/
def rsi_14 (closes : Option (List ℚ)) : Option ℚ :=
  match closes with
  | none => none
  | some cs =>
    if cs.length < period + 1 then none
    else some (rsiFromDiffs (diffs cs))

/-- Index walk of `weekly_closes_from_daily`: the Python loop
`for i in range(n-1, -1, -7)` visits `i, i-7, i-14, ...` down to the last
non-negative value (bot.py line 204). `stride7 i` is that index list. -/
def stride7 (i : ℕ) : List ℕ :=
  if i < 7 then [i] else i :: stride7 (i - 7)
termination_by i
decreasing_by omega

/-- `weekly_closes_from_daily` (bot.py lines 196-207): `None` for a missing,
empty or short (< 30) daily series, otherwise every 7th daily close walking
backward from the newest, reversed to chronological order. -/
def weekly_closes_from_daily (daily_closes : Option (List ℚ)) : Option (List ℚ) :=
  match daily_closes with
  | none => none
  | some l =>
    if l.isEmpty ∨ l.length < 30 then none
    else some (((stride7 (l.length - 1)).map (fun i => l.getD i 0)).reverse)

/-- `RSI_OVERBOUGHT` (bot.py line 30). -/
def RSI_OVERBOUGHT : ℚ := 72

/-- `RSI_OVERSOLD` (bot.py line 31). -/
def RSI_OVERSOLD : ℚ := 28

/-- Qualitative tag of `rsi_status` (bot.py lines 210-217); the returned
string embeds the numeric value only for display, so the tag is the logical
content. -/
inductive RsiStatus
  | na
  | overbought
  | oversold
  | neutral
deriving DecidableEq, Repr

/-- `rsi_status` (bot.py lines 210-217). -/
def rsi_status (rsi_value : Option ℚ) : RsiStatus :=
  match rsi_value with
  | none => .na
  | some x =>
    if x > RSI_OVERBOUGHT then .overbought
    else if x < RSI_OVERSOLD then .oversold
    else .neutral

/-- `is_rsi_trigger` (bot.py lines 220-223). -/
def is_rsi_trigger (rsi_value : Option ℚ) : Bool :=
  match rsi_value with
  | none => false
  | some x => decide (x > RSI_OVERBOUGHT) || decide (x < RSI_OVERSOLD)

/-- The `state` string of the `check_bounds` result dictionary
(bot.py line 239: inside / near_lower / near_upper / outside_lower /
outside_upper). -/
inductive BState
  | inside
  | near_lower
  | near_upper
  | outside_lower
  | outside_upper
deriving DecidableEq, Repr

/-- Which bound was breached, the `outside_side` field of the result
dictionary ("lower" / "upper"). -/
inductive Side
  | lower
  | upper
deriving DecidableEq, Repr

/-- Kind of a trigger message appended by `check_bounds`; one constructor per
`triggers.append` site (bot.py lines 264, 276, 290, 303, 314, 324). -/
inductive TriggerKind
  | outsideBelowLower
  | outsideAboveUpper
  | nearLowerWithinTol
  | nearUpperWithinTol
  | nearLowerInside
  | nearUpperInside
deriving DecidableEq, Repr

/-- A trigger message of `check_bounds`, with the formatted string replaced by
the numeric payload it interpolates (symbol, price, breached bound, absolute
and percentage distance). -/
structure Trigger where
  kind : TriggerKind
  symbol : String
  price : ℚ
  bound : ℚ
  dist_abs : ℚ
  dist_pct : ℚ
deriving DecidableEq, Repr

/-- The result dictionary of `check_bounds` (bot.py lines 241-250). -/
structure BoundsResult where
  symbol : String
  state : BState
  triggers : List Trigger
  outside_dist_pct : Option ℚ
  outside_dist_abs : Option ℚ
  outside_side : Option Side
  within_tolerance : Bool
  outside_tol_pct : ℚ
deriving DecidableEq, Repr

/-- `check_bounds` (bot.py lines 229-329): classifies `price` against the
grid `[lower, upper]`, with tolerance band `outside_tol_pct` (percent) and
near band `near_pct` (percent); first matching branch returns.  Python's
`(dist_abs / lower) * 100.0 if lower else 0.0` is rendered with the same
zero guard. -/
def check_bounds (symbol : String) (price lower upper near_pct outside_tol_pct : ℚ) :
    BoundsResult :=
  let lower_outside_level := lower * (1 - outside_tol_pct / 100)
  let upper_outside_level := upper * (1 + outside_tol_pct / 100)
  if price < lower_outside_level then
    let dist_abs := lower - price
    let dist_pct := if lower = 0 then 0 else dist_abs / lower * 100
    { symbol := symbol, state := .outside_lower,
      triggers := [⟨.outsideBelowLower, symbol, price, lower, dist_abs, dist_pct⟩],
      outside_dist_pct := some dist_pct, outside_dist_abs := some dist_abs,
      outside_side := some .lower, within_tolerance := false,
      outside_tol_pct := outside_tol_pct }
  else if price > upper_outside_level then
    let dist_abs := price - upper
    let dist_pct := if upper = 0 then 0 else dist_abs / upper * 100
    { symbol := symbol, state := .outside_upper,
      triggers := [⟨.outsideAboveUpper, symbol, price, upper, dist_abs, dist_pct⟩],
      outside_dist_pct := some dist_pct, outside_dist_abs := some dist_abs,
      outside_side := some .upper, within_tolerance := false,
      outside_tol_pct := outside_tol_pct }
  else if price < lower then
    let dist_abs := lower - price
    let dist_pct := if lower = 0 then 0 else dist_abs / lower * 100
    { symbol := symbol, state := .near_lower,
      triggers := [⟨.nearLowerWithinTol, symbol, price, lower, dist_abs, dist_pct⟩],
      outside_dist_pct := some dist_pct, outside_dist_abs := some dist_abs,
      outside_side := some .lower, within_tolerance := true,
      outside_tol_pct := outside_tol_pct }
  else if price > upper then
    let dist_abs := price - upper
    let dist_pct := if upper = 0 then 0 else dist_abs / upper * 100
    { symbol := symbol, state := .near_upper,
      triggers := [⟨.nearUpperWithinTol, symbol, price, upper, dist_abs, dist_pct⟩],
      outside_dist_pct := some dist_pct, outside_dist_abs := some dist_abs,
      outside_side := some .upper, within_tolerance := true,
      outside_tol_pct := outside_tol_pct }
  else if price ≤ lower * (1 + near_pct / 100) then
    let dist_abs := price - lower
    let dist_pct := if lower = 0 then 0 else dist_abs / lower * 100
    { symbol := symbol, state := .near_lower,
      triggers := [⟨.nearLowerInside, symbol, price, lower, dist_abs, dist_pct⟩],
      outside_dist_pct := none, outside_dist_abs := none,
      outside_side := none, within_tolerance := false,
      outside_tol_pct := outside_tol_pct }
  else if price ≥ upper * (1 - near_pct / 100) then
    let dist_abs := upper - price
    let dist_pct := if upper = 0 then 0 else dist_abs / upper * 100
    { symbol := symbol, state := .near_upper,
      triggers := [⟨.nearUpperInside, symbol, price, upper, dist_abs, dist_pct⟩],
      outside_dist_pct := none, outside_dist_abs := none,
      outside_side := none, within_tolerance := false,
      outside_tol_pct := outside_tol_pct }
  else
    { symbol := symbol, state := .inside, triggers := [],
      outside_dist_pct := none, outside_dist_abs := none,
      outside_side := none, within_tolerance := false,
      outside_tol_pct := outside_tol_pct }

/-- The spec's seven-variant `BoundsState`
(spec §3: Inside, NearLower, NearUpper, NearLowerTolerated,
NearUpperTolerated, OutsideLower, OutsideUpper). -/
inductive BoundsState
  | Inside
  | NearLower
  | NearUpper
  | NearLowerTolerated
  | NearUpperTolerated
  | OutsideLower
  | OutsideUpper
deriving DecidableEq, Repr

/-- Reading of the spec's state out of a `check_bounds` result: the code
encodes the two Tolerated variants as `near_lower` / `near_upper` with
`within_tolerance = True`. -/
def stateOf (b : BoundsResult) : BoundsState :=
  match b.state, b.within_tolerance with
  | .inside, _ => .Inside
  | .near_lower, true => .NearLowerTolerated
  | .near_lower, false => .NearLower
  | .near_upper, true => .NearUpperTolerated
  | .near_upper, false => .NearUpper
  | .outside_lower, _ => .OutsideLower
  | .outside_upper, _ => .OutsideUpper

/-- Modelled from the spec: the seven-step decision order of §4.4, written
exactly as the spec lists it (percent parameters divided by 100 in the
threshold formulas).  Used only to compare against `check_bounds`. -/
def classifySpec (price lower upper near_pct outside_tol_pct : ℚ) : BoundsState :=
  if price < lower * (1 - outside_tol_pct / 100) then .OutsideLower
  else if price > upper * (1 + outside_tol_pct / 100) then .OutsideUpper
  else if price < lower then .NearLowerTolerated
  else if price > upper then .NearUpperTolerated
  else if price ≤ lower * (1 + near_pct / 100) then .NearLower
  else if price ≥ upper * (1 - near_pct / 100) then .NearUpper
  else .Inside

/-- `SOFT_OUTSIDE_PCT` (bot.py line 37): breaches smaller than this percent
get MONITOR instead of PAUSE. -/
def SOFT_OUTSIDE_PCT : ℚ := 3 / 4

/-- One advisory line of `pair_recommendation`; one constructor per
`lines.append` site (bot.py lines 349-373), with the formatted string
replaced by the numeric payload it interpolates. -/
inductive RecLine
  | monitorOutsideSmall (dist_pct : ℚ)
  | monitorOutsideFollowup
  | pauseShiftRange
  | pauseRecenterAfterStabilize
  | monitorWithinTolerance
  | monitorToleranceFollowup
  | considerPauseOrWiden
  | leaveAsIs
  | dailyRsiHint
  | weeklyRsiHint
deriving DecidableEq, Repr

/-- `pair_recommendation` (bot.py lines 335-375): advisory lines from the
bounds state (soft MONITOR vs PAUSE for outside states, tolerance split for
near states, leave-as-is otherwise), then additive daily / weekly RSI
hints. -/
def pair_recommendation (b : BoundsResult)
    (daily_rsi weekly_rsi : Option ℚ) : List RecLine :=
  let base : List RecLine :=
    if b.state = .outside_lower ∨ b.state = .outside_upper then
      match b.outside_dist_pct with
      | some d =>
        if d < SOFT_OUTSIDE_PCT then
          [.monitorOutsideSmall d, .monitorOutsideFollowup]
        else
          [.pauseShiftRange, .pauseRecenterAfterStabilize]
      | none => [.pauseShiftRange, .pauseRecenterAfterStabilize]
    else if b.state = .near_lower ∨ b.state = .near_upper then
      if b.within_tolerance then
        [.monitorWithinTolerance, .monitorToleranceFollowup]
      else
        [.considerPauseOrWiden]
    else
      [.leaveAsIs]
  base ++ (if is_rsi_trigger daily_rsi then [.dailyRsiHint] else [])
       ++ (if is_rsi_trigger weekly_rsi then [.weeklyRsiHint] else [])

set_option maxHeartbeats 1000000 in
/-- C1: for every price, lower, upper, nearPct and outsideTolPct with
0 < lower < upper, nearPct ≥ 0 and outsideTolPct ≥ 0 (percent values divided
by 100 in the threshold formulas), `check_bounds` returns the state selected
by the first matching rule of the spec's seven-step decision order. -/
theorem c1_classifier_follows_decision_order
    (symbol : String) (price lower upper near_pct outside_tol_pct : ℚ)
    (hl : 0 < lower) (hlu : lower < upper)
    (hn : 0 ≤ near_pct) (ht : 0 ≤ outside_tol_pct) :
    stateOf (check_bounds symbol price lower upper near_pct outside_tol_pct) =
      classifySpec price lower upper near_pct outside_tol_pct := by
  simp only [check_bounds, classifySpec]
  split_ifs <;> rfl

/-- C1 witness: the spec's worked example, tol = 5 %, lower = 100 (upper 200,
near 1 %): price 97 is NearLowerTolerated and price 90 is OutsideLower. -/
theorem c1_classifier_follows_decision_order_witness :
    (0 : ℚ) < 100 ∧ (100 : ℚ) < 200 ∧ (0 : ℚ) ≤ 1 ∧ (0 : ℚ) ≤ 5 ∧
    stateOf (check_bounds "SOL" 97 100 200 1 5) = BoundsState.NearLowerTolerated ∧
    stateOf (check_bounds "SOL" 90 100 200 1 5) = BoundsState.OutsideLower := by
  refine ⟨by norm_num, by norm_num, by norm_num, by norm_num, ?_, ?_⟩
  · rw [c1_classifier_follows_decision_order "SOL" 97 100 200 1 5
      (by norm_num) (by norm_num) (by norm_num) (by norm_num)]
    norm_num [classifySpec]
  · rw [c1_classifier_follows_decision_order "SOL" 90 100 200 1 5
      (by norm_num) (by norm_num) (by norm_num) (by norm_num)]
    norm_num [classifySpec]

/-- C2 counterexample: at price = lower = 100 (upper 200, nearPct 0, tol 0)
the classifier does not return Inside — the inclusive `price <= near_lower_level`
comparison of step 5 fires and yields NearLower. -/
theorem c2_boundary_counterexample :
    stateOf (check_bounds "BTC" 100 100 200 0 0) ≠ BoundsState.Inside := by
  norm_num [check_bounds, stateOf]
  decide

/-- C2 amended: for every 0 < lower < upper, calling the classifier with
price = lower, nearPct = 0 and outsideTolPct = 0 returns NearLower — the
boundary value is near, not inside, because step 5 compares with `<=`. -/
theorem c2_boundary_is_near_lower (symbol : String) (lower upper : ℚ)
    (hl : 0 < lower) (hlu : lower < upper) :
    stateOf (check_bounds symbol lower lower upper 0 0) = BoundsState.NearLower := by
  unfold check_bounds
  have h2 : ¬ upper < lower := not_lt.mpr hlu.le
  norm_num [h2, stateOf]

/-- C2 amended witness: concrete instance at lower = 100, upper = 200. -/
theorem c2_boundary_is_near_lower_witness :
    (0 : ℚ) < 100 ∧ (100 : ℚ) < 200 ∧
    stateOf (check_bounds "BTC" 100 100 200 0 0) = BoundsState.NearLower :=
  ⟨by norm_num, by norm_num,
   c2_boundary_is_near_lower "BTC" 100 200 (by norm_num) (by norm_num)⟩

/-- C3: for every closes sequence of length < 15, including the absent
(`none`) sequence, `rsi_14` returns `none`. -/
theorem c3_short_series_unavailable (closes : Option (List ℚ))
    (h : ∀ l, closes = some l → l.length < 15) :
    rsi_14 closes = none := by
  cases closes with
  | none => rfl
  | some l =>
    have := h l rfl
    simp only [rsi_14, period]
    rw [if_pos (by omega)]

/-- C3 witness: the three-point series is too short. -/
theorem c3_short_series_unavailable_witness :
    (∀ l : List ℚ, some [1, 2, 3] = some l → l.length < 15) ∧
      rsi_14 (some [1, 2, 3]) = none :=
  ⟨fun l h => by cases h; decide,
   c3_short_series_unavailable (some [1, 2, 3]) (fun l h => by cases h; decide)⟩

/-- C9: the overbought / oversold comparisons are strict — a value exactly at
either threshold is neutral and does not trigger; the trigger predicate is
true exactly when the value is strictly above RSI_OVERBOUGHT or strictly
below RSI_OVERSOLD, and false for an absent value. -/
theorem c9_rsi_threshold_strictness :
    rsi_status (some RSI_OVERBOUGHT) = RsiStatus.neutral ∧
    rsi_status (some RSI_OVERSOLD) = RsiStatus.neutral ∧
    is_rsi_trigger (some RSI_OVERBOUGHT) = false ∧
    is_rsi_trigger (some RSI_OVERSOLD) = false ∧
    is_rsi_trigger none = false ∧
    ∀ x : ℚ, is_rsi_trigger (some x) = true ↔
      (RSI_OVERBOUGHT < x ∨ x < RSI_OVERSOLD) := by
  refine ⟨?_, ?_, ?_, ?_, rfl, ?_⟩ <;>
    norm_num [rsi_status, is_rsi_trigger, RSI_OVERBOUGHT, RSI_OVERSOLD]

lemma periodQ_pos : (0 : ℚ) < (period : ℚ) := by norm_num [period]

lemma diffs_cons_cons (a b : ℚ) (t : List ℚ) :
    diffs (a :: b :: t) = (b - a) :: diffs (b :: t) := rfl

/-- Every consecutive difference of a `Chain' r` list satisfies the image of
`r` under subtraction. -/
lemma diffs_forall_of_chain (r : ℚ → ℚ → Prop)
    (hr : ∀ a b : ℚ, r a b → r 0 (b - a)) :
    ∀ cs : List ℚ, List.Chain' r cs → ∀ d ∈ diffs cs, r 0 d
  | [], _, d, hd => by simp [diffs] at hd
  | [a], _, d, hd => by simp [diffs] at hd
  | a :: b :: t, h, d, hd => by
    rw [diffs_cons_cons] at hd
    rcases List.mem_cons.mp hd with h1 | h2
    · subst h1
      exact hr a b (List.chain'_cons.mp h).1
    · exact diffs_forall_of_chain r hr (b :: t) (List.chain'_cons.mp h).2 d h2

lemma wilderStep_fst_nonneg (p : ℚ × ℚ) (d : ℚ) (h : 0 ≤ p.1) :
    0 ≤ (wilderStep p d).1 := by
  unfold wilderStep
  have h2 := le_max_right d (0 : ℚ)
  have h3 : (0 : ℚ) ≤ (period : ℚ) - 1 := by norm_num [period]
  exact div_nonneg (by nlinarith) periodQ_pos.le

lemma wilderStep_snd_nonneg (p : ℚ × ℚ) (d : ℚ) (h : 0 ≤ p.2) :
    0 ≤ (wilderStep p d).2 := by
  unfold wilderStep
  have h2 := le_max_right (-d) (0 : ℚ)
  have h3 : (0 : ℚ) ≤ (period : ℚ) - 1 := by norm_num [period]
  exact div_nonneg (by nlinarith) periodQ_pos.le

lemma wilderStep_snd_pos (p : ℚ × ℚ) (d : ℚ) (h : 0 < p.2) :
    0 < (wilderStep p d).2 := by
  unfold wilderStep
  have h2 := le_max_right (-d) (0 : ℚ)
  have h3 : (0 : ℚ) < (period : ℚ) - 1 := by norm_num [period]
  exact div_pos (by nlinarith) periodQ_pos

/-- Wilder smoothing keeps both averages non-negative. -/
lemma foldl_wilderStep_nonneg : ∀ (ds : List ℚ) (p : ℚ × ℚ),
    0 ≤ p.1 → 0 ≤ p.2 →
    0 ≤ (ds.foldl wilderStep p).1 ∧ 0 ≤ (ds.foldl wilderStep p).2
  | [], _, h1, h2 => ⟨h1, h2⟩
  | d :: ds, p, h1, h2 => by
    rw [List.foldl_cons]
    exact foldl_wilderStep_nonneg ds (wilderStep p d)
      (wilderStep_fst_nonneg p d h1) (wilderStep_snd_nonneg p d h2)

/-- Wilder smoothing keeps a positive average loss positive. -/
lemma foldl_wilderStep_snd_pos : ∀ (ds : List ℚ) (p : ℚ × ℚ),
    0 < p.2 → 0 < (ds.foldl wilderStep p).2
  | [], _, h => h
  | d :: ds, p, h => by
    rw [List.foldl_cons]
    exact foldl_wilderStep_snd_pos ds (wilderStep p d) (wilderStep_snd_pos p d h)

/-- Over non-negative differences the smoothed average loss stays zero. -/
lemma foldl_wilderStep_snd_zero : ∀ (ds : List ℚ) (ag : ℚ),
    (∀ d ∈ ds, 0 ≤ d) → ((ds.foldl wilderStep (ag, 0)).2 = 0)
  | [], _, _ => rfl
  | d :: ds, ag, h => by
    have hd : 0 ≤ d := h d (List.mem_cons_self d ds)
    have hstep : wilderStep (ag, 0) d =
        ((ag * ((period : ℚ) - 1) + max d 0) / (period : ℚ), 0) := by
      unfold wilderStep
      rw [max_eq_right (neg_nonpos.mpr hd)]
      norm_num
    rw [List.foldl_cons, hstep]
    exact foldl_wilderStep_snd_zero ds _ (fun x hx => h x (List.mem_cons_of_mem _ hx))

/-- Over non-positive differences the smoothed average gain stays zero. -/
lemma foldl_wilderStep_fst_zero : ∀ (ds : List ℚ) (al : ℚ),
    (∀ d ∈ ds, d ≤ 0) → ((ds.foldl wilderStep (0, al)).1 = 0)
  | [], _, _ => rfl
  | d :: ds, al, h => by
    have hd : d ≤ 0 := h d (List.mem_cons_self d ds)
    have hstep : wilderStep (0, al) d =
        (0, (al * ((period : ℚ) - 1) + max (-d) 0) / (period : ℚ)) := by
      unfold wilderStep
      rw [max_eq_right hd]
      norm_num
    rw [List.foldl_cons, hstep]
    exact foldl_wilderStep_fst_zero ds _ (fun x hx => h x (List.mem_cons_of_mem _ hx))

/-- The closed RSI formula is always in [0, 100] for non-negative averages. -/
lemma rsiFormula_bounds (g l : ℚ) (hg : 0 ≤ g) (hl : 0 ≤ l) :
    0 ≤ (if l = 0 then (100 : ℚ) else 100 - 100 / (1 + g / l)) ∧
    (if l = 0 then (100 : ℚ) else 100 - 100 / (1 + g / l)) ≤ 100 := by
  split_ifs with h0
  · norm_num
  · have hrs : 0 ≤ g / l := div_nonneg hg hl
    constructor
    · have hle : 100 / (1 + g / l) ≤ 100 := div_le_self (by norm_num) (by linarith)
      linarith
    · have hge : (0 : ℚ) ≤ 100 / (1 + g / l) := div_nonneg (by norm_num) (by linarith)
      linarith

lemma rsiFromDiffs_nonneg_le (ds : List ℚ) :
    0 ≤ rsiFromDiffs ds ∧ rsiFromDiffs ds ≤ 100 := by
  have hg : 0 ≤ ((ds.take period).map (fun d => max d 0)).sum / (period : ℚ) :=
    div_nonneg (List.sum_nonneg (by
      intro x hx
      rcases List.mem_map.mp hx with ⟨d, hd, rfl⟩
      exact le_max_right d 0)) periodQ_pos.le
  have hl : 0 ≤ ((ds.take period).map (fun d => max (-d) 0)).sum / (period : ℚ) :=
    div_nonneg (List.sum_nonneg (by
      intro x hx
      rcases List.mem_map.mp hx with ⟨d, hd, rfl⟩
      exact le_max_right (-d) 0)) periodQ_pos.le
  obtain ⟨hf1, hf2⟩ := foldl_wilderStep_nonneg (ds.drop period)
    (((ds.take period).map (fun d => max d 0)).sum / (period : ℚ),
     ((ds.take period).map (fun d => max (-d) 0)).sum / (period : ℚ)) hg hl
  simp only [rsiFromDiffs]
  exact rsiFormula_bounds _ _ hf1 hf2

/-- C4: for every strictly increasing closes sequence of length at least 15,
`rsi_14` returns exactly 100: all per-step losses are zero, so the final
smoothed average loss is zero and the `avg_loss == 0` branch fires. -/
theorem c4_increasing_rsi_100 (cs : List ℚ)
    (hlen : 15 ≤ cs.length) (hmono : List.Chain' (· < ·) cs) :
    rsi_14 (some cs) = some 100 := by
  have hpos : ∀ d ∈ diffs cs, 0 < d := by
    intro d hd
    have := diffs_forall_of_chain (· < ·)
      (fun a b hab => by simpa using sub_pos.mpr hab) cs hmono d hd
    simpa using this
  have hloss0 : (((diffs cs).take period).map (fun d => max (-d) 0)).sum = 0 := by
    apply List.sum_eq_zero
    intro x hx
    rcases List.mem_map.mp hx with ⟨d, hd, rfl⟩
    have hdpos : 0 < d := hpos d (List.mem_of_mem_take hd)
    simp [max_eq_right (neg_nonpos.mpr hdpos.le)]
  have hguard : ¬ (cs.length < period + 1) := by simp only [period]; omega
  have hfin : ((List.foldl wilderStep
      ((((diffs cs).take period).map (fun d => max d 0)).sum / (period : ℚ), 0)
      ((diffs cs).drop period)).2 = 0) :=
    foldl_wilderStep_snd_zero _ _
      (fun d hd => (hpos d (List.mem_of_mem_drop hd)).le)
  have hbody : rsiFromDiffs (diffs cs) = 100 := by
    simp only [rsiFromDiffs]
    rw [hloss0, zero_div, if_pos hfin]
  simp only [rsi_14]
  rw [if_neg hguard, hbody]

/-- C4 witness: the strictly increasing 15-point series 1..15 has RSI 100. -/
theorem c4_increasing_rsi_100_witness :
    15 ≤ ([1, 2, 3, 4, 5, 6, 7, 8, 9, 10, 11, 12, 13, 14, 15] : List ℚ).length ∧
    List.Chain' (· < ·) ([1, 2, 3, 4, 5, 6, 7, 8, 9, 10, 11, 12, 13, 14, 15] : List ℚ) ∧
    rsi_14 (some ([1, 2, 3, 4, 5, 6, 7, 8, 9, 10, 11, 12, 13, 14, 15] : List ℚ)) = some 100 :=
  ⟨by decide, by norm_num, c4_increasing_rsi_100 _ (by decide) (by norm_num)⟩

/-- C5: for every strictly decreasing closes sequence of length at least 15,
`rsi_14` returns exactly 0: all per-step gains are zero, so RS = 0 and
RSI = 100 - 100/(1+0) = 0. -/
theorem c5_decreasing_rsi_0 (cs : List ℚ)
    (hlen : 15 ≤ cs.length) (hmono : List.Chain' (· > ·) cs) :
    rsi_14 (some cs) = some 0 := by
  have hneg : ∀ d ∈ diffs cs, d < 0 := by
    intro d hd
    have := diffs_forall_of_chain (· > ·)
      (fun a b hab => by simpa using sub_neg.mpr hab) cs hmono d hd
    simpa using this
  have hgain0 : (((diffs cs).take period).map (fun d => max d 0)).sum = 0 := by
    apply List.sum_eq_zero
    intro x hx
    rcases List.mem_map.mp hx with ⟨d, hd, rfl⟩
    have hdneg : d < 0 := hneg d (List.mem_of_mem_take hd)
    simp [max_eq_right hdneg.le]
  have hdlen : 14 ≤ (diffs cs).length := by
    simp only [diffs, List.length_zipWith, List.length_tail]
    omega
  have hlen_take : ((((diffs cs).take period).map (fun d => max (-d) 0))).length = 14 := by
    simp only [List.length_map, List.length_take, period]
    omega
  have hsum_pos : 0 < (((diffs cs).take period).map (fun d => max (-d) 0)).sum := by
    apply List.sum_pos
    · intro x hx
      rcases List.mem_map.mp hx with ⟨d, hd, rfl⟩
      have hdneg : d < 0 := hneg d (List.mem_of_mem_take hd)
      rw [max_eq_left (neg_nonneg.mpr hdneg.le)]
      exact neg_pos.mpr hdneg
    · intro hnil
      rw [hnil] at hlen_take
      simp at hlen_take
  have hal_pos : 0 < (((diffs cs).take period).map (fun d => max (-d) 0)).sum / (period : ℚ) :=
    div_pos hsum_pos periodQ_pos
  have hguard : ¬ (cs.length < period + 1) := by simp only [period]; omega
  have hbody : rsiFromDiffs (diffs cs) = 0 := by
    simp only [rsiFromDiffs]
    rw [hgain0, zero_div]
    have hsnd_pos : 0 < (List.foldl wilderStep
        (0, (((diffs cs).take period).map (fun d => max (-d) 0)).sum / (period : ℚ))
        ((diffs cs).drop period)).2 :=
      foldl_wilderStep_snd_pos _ _ hal_pos
    rw [if_neg hsnd_pos.ne']
    rw [foldl_wilderStep_fst_zero _ _
      (fun d hd => (hneg d (List.mem_of_mem_drop hd)).le)]
    norm_num
  simp only [rsi_14]
  rw [if_neg hguard, hbody]

/-- C5 witness: the strictly decreasing 15-point series 15..1 has RSI 0. -/
theorem c5_decreasing_rsi_0_witness :
    15 ≤ ([15, 14, 13, 12, 11, 10, 9, 8, 7, 6, 5, 4, 3, 2, 1] : List ℚ).length ∧
    List.Chain' (· > ·) ([15, 14, 13, 12, 11, 10, 9, 8, 7, 6, 5, 4, 3, 2, 1] : List ℚ) ∧
    rsi_14 (some ([15, 14, 13, 12, 11, 10, 9, 8, 7, 6, 5, 4, 3, 2, 1] : List ℚ)) = some 0 :=
  ⟨by decide, by norm_num, c5_decreasing_rsi_0 _ (by decide) (by norm_num)⟩

/-- C7: for every closes sequence of length at least 15, the value returned
by `rsi_14` lies in the closed interval [0, 100] (over exact rationals). -/
theorem c7_rsi_in_range (cs : List ℚ) (hlen : 15 ≤ cs.length) :
    ∃ v, rsi_14 (some cs) = some v ∧ 0 ≤ v ∧ v ≤ 100 := by
  have hguard : ¬ (cs.length < period + 1) := by simp only [period]; omega
  obtain ⟨h1, h2⟩ := rsiFromDiffs_nonneg_le (diffs cs)
  refine ⟨rsiFromDiffs (diffs cs), ?_, h1, h2⟩
  simp only [rsi_14]
  rw [if_neg hguard]

/-- C7 witness: a concrete mixed 15-point series has its RSI inside [0, 100]. -/
theorem c7_rsi_in_range_witness :
    15 ≤ ([3, 7, 2, 9, 4, 8, 1, 6, 5, 10, 2, 7, 3, 8, 4] : List ℚ).length ∧
    ∃ v, rsi_14 (some ([3, 7, 2, 9, 4, 8, 1, 6, 5, 10, 2, 7, 3, 8, 4] : List ℚ)) = some v ∧
      0 ≤ v ∧ v ≤ 100 :=
  ⟨by decide, c7_rsi_in_range _ (by decide)⟩

lemma stride7_length : ∀ i : ℕ, (stride7 i).length = i / 7 + 1
  | i => by
    rw [stride7]
    split_ifs with h
    · simp [Nat.div_eq_of_lt h]
    · rw [List.length_cons, stride7_length (i - 7)]
      omega
termination_by i => i
decreasing_by omega

lemma stride7_head (i : ℕ) : (stride7 i).head? = some i := by
  rw [stride7]
  split_ifs <;> rfl

lemma stride7_chain : ∀ i : ℕ, List.Chain' (fun a b : ℕ => b < a) (stride7 i)
  | i => by
    rw [stride7]
    split_ifs with h
    · simp
    · rw [List.chain'_cons']
      refine ⟨?_, stride7_chain (i - 7)⟩
      intro y hy
      simp [stride7_head] at hy
      omega
termination_by i => i
decreasing_by omega

/-- C6: a daily closes sequence with fewer than 30 points (or an absent one)
yields no weekly series; with n ≥ 30 points the weekly series has length
exactly ceil(n/7) = (n+6)/7, its last element is the last daily close, and it
is the image of a strictly increasing index walk ending at the newest day —
the backward stride-7 walk reversed to chronological order. -/
theorem c6_weekly_closes :
    weekly_closes_from_daily none = none ∧
    (∀ l : List ℚ, l.length < 30 → weekly_closes_from_daily (some l) = none) ∧
    (∀ l : List ℚ, 30 ≤ l.length →
      ∃ w, weekly_closes_from_daily (some l) = some w ∧
        w.length = (l.length + 6) / 7 ∧
        w.getLast? = l.getLast? ∧
        ∃ idx : List ℕ, List.Chain' (· < ·) idx ∧
          idx.getLast? = some (l.length - 1) ∧
          w = idx.map (fun i => l.getD i 0)) := by
  refine ⟨rfl, ?_, ?_⟩
  · intro l hshort
    simp only [weekly_closes_from_daily]
    rw [if_pos (Or.inr hshort)]
  · intro l hlong
    have hne : ¬ (l.isEmpty ∨ l.length < 30) := by
      rw [List.isEmpty_iff_length_eq_zero]
      omega
    refine ⟨((stride7 (l.length - 1)).map (fun i => l.getD i 0)).reverse, ?_, ?_, ?_, ?_⟩
    · simp only [weekly_closes_from_daily]
      rw [if_neg hne]
    · rw [List.length_reverse, List.length_map, stride7_length]
      omega
    · rw [List.getLast?_reverse, List.head?_map, stride7_head]
      have hlt : l.length - 1 < l.length := by omega
      rw [List.getLast?_eq_getElem?, List.getElem?_eq_getElem hlt]
      simp only [Option.map_some', List.getD_eq_getElem?_getD,
        List.getElem?_eq_getElem hlt, Option.getD_some]
    · refine ⟨(stride7 (l.length - 1)).reverse, ?_, ?_, ?_⟩
      · rw [List.chain'_reverse]
        exact stride7_chain (l.length - 1)
      · rw [List.getLast?_reverse, stride7_head]
      · rw [List.map_reverse]

/-- C6 witness: 29 daily points give no weekly series; 30 daily points give a
weekly series of length 5 ending at the newest close. -/
theorem c6_weekly_closes_witness :
    ((List.range 29).map (fun i => (i : ℚ))).length < 30 ∧
    weekly_closes_from_daily (some ((List.range 29).map (fun i => (i : ℚ)))) = none ∧
    30 ≤ ((List.range 30).map (fun i => (i : ℚ))).length ∧
    ∃ w, weekly_closes_from_daily (some ((List.range 30).map (fun i => (i : ℚ)))) = some w ∧
      w.length = (((List.range 30).map (fun i => (i : ℚ))).length + 6) / 7 ∧
      w.getLast? = ((List.range 30).map (fun i => (i : ℚ))).getLast? ∧
      ∃ idx : List ℕ, List.Chain' (· < ·) idx ∧
        idx.getLast? = some (((List.range 30).map (fun i => (i : ℚ))).length - 1) ∧
        w = idx.map (fun i => ((List.range 30).map (fun i => (i : ℚ))).getD i 0) :=
  ⟨by decide, c6_weekly_closes.2.1 _ (by decide), by decide,
   c6_weekly_closes.2.2 _ (by decide)⟩

lemma check_bounds_outside_isSome (symbol : String)
    (price lower upper near_pct outside_tol_pct : ℚ)
    (hout : (check_bounds symbol price lower upper near_pct outside_tol_pct).state = BState.outside_lower ∨
            (check_bounds symbol price lower upper near_pct outside_tol_pct).state = BState.outside_upper) :
    ∃ dp, (check_bounds symbol price lower upper near_pct outside_tol_pct).outside_dist_pct = some dp := by
  simp only [check_bounds] at hout ⊢
  split_ifs at hout ⊢ <;> first | exact ⟨_, rfl⟩ | simp_all

lemma pair_recommendation_outside (b : BoundsResult)
    (daily_rsi weekly_rsi : Option ℚ) (dp : ℚ)
    (hst : b.state = BState.outside_lower ∨ b.state = BState.outside_upper)
    (hdp : b.outside_dist_pct = some dp) :
    pair_recommendation b daily_rsi weekly_rsi =
      (if dp < SOFT_OUTSIDE_PCT then
        [RecLine.monitorOutsideSmall dp, RecLine.monitorOutsideFollowup]
       else
        [RecLine.pauseShiftRange, RecLine.pauseRecenterAfterStabilize]) ++
      (if is_rsi_trigger daily_rsi then [RecLine.dailyRsiHint] else []) ++
      (if is_rsi_trigger weekly_rsi then [RecLine.weeklyRsiHint] else []) := by
  simp only [pair_recommendation, hdp]
  rw [if_pos hst]

/-- C8: for every bounds result in an outside state, the recommendation
starts with the monitor advisory exactly when the breach distance percentage
is strictly below SOFT_OUTSIDE_PCT and with the pause-and-re-center advisory
when it is at or above it, followed by the additive RSI hints. -/
theorem c8_outside_recommendation (symbol : String)
    (price lower upper near_pct outside_tol_pct : ℚ)
    (daily_rsi weekly_rsi : Option ℚ)
    (hout : (check_bounds symbol price lower upper near_pct outside_tol_pct).state = BState.outside_lower ∨
            (check_bounds symbol price lower upper near_pct outside_tol_pct).state = BState.outside_upper) :
    ∃ dp, (check_bounds symbol price lower upper near_pct outside_tol_pct).outside_dist_pct = some dp ∧
      pair_recommendation (check_bounds symbol price lower upper near_pct outside_tol_pct)
          daily_rsi weekly_rsi =
        (if dp < SOFT_OUTSIDE_PCT then
          [RecLine.monitorOutsideSmall dp, RecLine.monitorOutsideFollowup]
         else
          [RecLine.pauseShiftRange, RecLine.pauseRecenterAfterStabilize]) ++
        (if is_rsi_trigger daily_rsi then [RecLine.dailyRsiHint] else []) ++
        (if is_rsi_trigger weekly_rsi then [RecLine.weeklyRsiHint] else []) := by
  obtain ⟨dp, hdp⟩ := check_bounds_outside_isSome symbol price lower upper
    near_pct outside_tol_pct hout
  exact ⟨dp, hdp, pair_recommendation_outside _ daily_rsi weekly_rsi dp hout hdp⟩

/-- C8 witness: price 90 against the [100, 200] grid breaches by 10 %, which
is at least SOFT_OUTSIDE_PCT, so the pause advisory is emitted. -/
theorem c8_outside_recommendation_witness :
    ((check_bounds "BTC" 90 100 200 0 0).state = BState.outside_lower ∨
     (check_bounds "BTC" 90 100 200 0 0).state = BState.outside_upper) ∧
    ∃ dp, (check_bounds "BTC" 90 100 200 0 0).outside_dist_pct = some dp ∧
      pair_recommendation (check_bounds "BTC" 90 100 200 0 0) none none =
        (if dp < SOFT_OUTSIDE_PCT then
          [RecLine.monitorOutsideSmall dp, RecLine.monitorOutsideFollowup]
         else
          [RecLine.pauseShiftRange, RecLine.pauseRecenterAfterStabilize]) ++
        (if is_rsi_trigger none then [RecLine.dailyRsiHint] else []) ++
        (if is_rsi_trigger none then [RecLine.weeklyRsiHint] else []) :=
  ⟨Or.inl (by norm_num [check_bounds]),
   c8_outside_recommendation "BTC" 90 100 200 0 0 none none
     (Or.inl (by norm_num [check_bounds]))⟩

/-- C10: for every input with 0 < lower < upper and outsideTolPct ≥ 0, the
`check_bounds` result has a non-empty triggers list exactly when the state is
not inside; the distance fields are set exactly when the price is strictly
outside the nominal [lower, upper]; and for those states the percentage
distance is 100·|price − bound|/bound relative to the nominal bound. -/
theorem c10_result_invariants (symbol : String)
    (price lower upper near_pct outside_tol_pct : ℚ)
    (hl : 0 < lower) (hlu : lower < upper) (ht : 0 ≤ outside_tol_pct) :
    ((check_bounds symbol price lower upper near_pct outside_tol_pct).triggers ≠ [] ↔
      (check_bounds symbol price lower upper near_pct outside_tol_pct).state ≠ BState.inside) ∧
    ((check_bounds symbol price lower upper near_pct outside_tol_pct).outside_dist_pct.isSome ↔
      (price < lower ∨ upper < price)) ∧
    ((check_bounds symbol price lower upper near_pct outside_tol_pct).outside_dist_abs.isSome ↔
      (price < lower ∨ upper < price)) ∧
    (price < lower →
      (check_bounds symbol price lower upper near_pct outside_tol_pct).outside_dist_pct =
        some (100 * |price - lower| / lower)) ∧
    (upper < price →
      (check_bounds symbol price lower upper near_pct outside_tol_pct).outside_dist_pct =
        some (100 * |price - upper| / upper)) := by
  have hlne : lower ≠ 0 := hl.ne'
  have hune : upper ≠ 0 := (hl.trans hlu).ne'
  have hlo : lower * (1 - outside_tol_pct / 100) ≤ lower := by nlinarith
  have hup : upper ≤ upper * (1 + outside_tol_pct / 100) := by nlinarith
  simp only [check_bounds, hlne, hune, if_false]
  split_ifs with h1 h2 h3 h4 h5 h6
  · have hpl : price < lower := lt_of_lt_of_le h1 hlo
    refine ⟨by simp, by simp [hpl], by simp [hpl], fun hpl2 => ?_, fun hup2 => by linarith⟩
    rw [abs_of_neg (by linarith : price - lower < 0)]
    ring_nf
  · have hpu : upper < price := lt_of_le_of_lt hup h2
    refine ⟨by simp, by simp [hpu], by simp [hpu], fun hpl2 => by linarith, fun hup2 => ?_⟩
    rw [abs_of_pos (by linarith : (0 : ℚ) < price - upper)]
    ring_nf
  · refine ⟨by simp, by simp [h3], by simp [h3], fun hpl2 => ?_, fun hup2 => by linarith⟩
    rw [abs_of_neg (by linarith : price - lower < 0)]
    ring_nf
  · refine ⟨by simp, by simp [h4], by simp [h4], fun hpl2 => by linarith, fun hup2 => ?_⟩
    rw [abs_of_pos (by linarith : (0 : ℚ) < price - upper)]
    ring_nf
  · have hge : lower ≤ price := not_lt.mp h3
    have hle : price ≤ upper := not_lt.mp h4
    exact ⟨by simp, by simp [not_lt.mpr hge, not_lt.mpr hle],
      by simp [not_lt.mpr hge, not_lt.mpr hle],
      fun hpl2 => by linarith, fun hup2 => by linarith⟩
  · have hge : lower ≤ price := not_lt.mp h3
    have hle : price ≤ upper := not_lt.mp h4
    exact ⟨by simp, by simp [not_lt.mpr hge, not_lt.mpr hle],
      by simp [not_lt.mpr hge, not_lt.mpr hle],
      fun hpl2 => by linarith, fun hup2 => by linarith⟩
  · have hge : lower ≤ price := not_lt.mp h3
    have hle : price ≤ upper := not_lt.mp h4
    exact ⟨by simp, by simp [not_lt.mpr hge, not_lt.mpr hle],
      by simp [not_lt.mpr hge, not_lt.mpr hle],
      fun hpl2 => by linarith, fun hup2 => by linarith⟩

/-- C10 witness: instantiation at price 90, grid [100, 200], near 0, tol 0. -/
theorem c10_result_invariants_witness :
    ((check_bounds "BTC" 90 100 200 0 0).triggers ≠ [] ↔
      (check_bounds "BTC" 90 100 200 0 0).state ≠ BState.inside) ∧
    ((check_bounds "BTC" 90 100 200 0 0).outside_dist_pct.isSome ↔
      ((90 : ℚ) < 100 ∨ (200 : ℚ) < 90)) ∧
    ((check_bounds "BTC" 90 100 200 0 0).outside_dist_abs.isSome ↔
      ((90 : ℚ) < 100 ∨ (200 : ℚ) < 90)) ∧
    ((90 : ℚ) < 100 →
      (check_bounds "BTC" 90 100 200 0 0).outside_dist_pct =
        some (100 * |(90 : ℚ) - 100| / 100)) ∧
    ((200 : ℚ) < 90 →
      (check_bounds "BTC" 90 100 200 0 0).outside_dist_pct =
        some (100 * |(90 : ℚ) - 200| / 200)) :=
  c10_result_invariants "BTC" 90 100 200 0 0 (by norm_num) (by norm_num) (by norm_num)

end GridBot
